import Mathlib

/-!
Verification development for the loom-zed extension's binary acquisition and
resolution engine. The definitions below are a shallow embedding of the Rust
sources under src/src (download.rs, env.rs, settings.rs, lib.rs); theorems
settle the spec's claims about asset selection, retry, caching, cache keys,
environment augmentation, and binary resolution.
-/

namespace LoomZed

/-! ## Platform and release model (zed_extension_api types used by the code) -/

/-- Operating-system family, mirroring zed::Os (Mac | Linux | Windows). -/
inductive Os
  | mac
  | linux
  | windows
deriving DecidableEq

/-- CPU architecture, mirroring zed::Architecture (Aarch64 | X8664 | X86). -/
inductive Architecture
  | aarch64
  | x8664
  | x86
deriving DecidableEq

/-- One downloadable release artifact, mirroring zed::GithubReleaseAsset. -/
structure GithubReleaseAsset where
  name : String
  download_url : String
deriving DecidableEq

/-! ## String helpers mirroring the Rust std operations used by the code.
All are written over String.data (List Char) so that concrete instances
evaluate inside the kernel. -/

/-- Boolean test that pat is a leading segment of l (models str starts-with,
used to build the substring test below). -/
def charsHasPref : List Char → List Char → Bool
  | [], _ => true
  | _ :: _, [] => false
  | p :: ps, c :: cs => p == c && charsHasPref ps cs

/-- Boolean substring containment on char lists (models Rust str::contains
with a literal pattern). -/
def charsContains : List Char → List Char → Bool
  | [], pat => pat.isEmpty
  | c :: rest, pat => charsHasPref pat (c :: rest) || charsContains rest pat

/-- Substring containment lifted to String: strContains s pat models
s.contains(pat) from Rust. -/
def strContains (s pat : String) : Bool := charsContains s.data pat.data

/-- Suffix test lifted to String: strEndsWith s pat models s.ends_with(pat)
from Rust. -/
def strEndsWith (s pat : String) : Bool := charsHasPref pat.data.reverse s.data.reverse

/-- ASCII whitespace test used by the trim model (the code only ever trims
ASCII configuration strings). -/
def isWhitespaceChar (c : Char) : Bool := c == ' ' || c == '\t' || c == '\n' || c == '\r'

/-- Model of Rust str::trim: drop whitespace from both ends. -/
def strTrim (s : String) : String :=
  ⟨((s.data.dropWhile isWhitespaceChar).reverse.dropWhile isWhitespaceChar).reverse⟩

/-- Model of Rust str::is_empty. -/
def strIsEmpty (s : String) : Bool := s.data.isEmpty

/-- Lowercase one ASCII character, as Rust char::to_ascii_lowercase. -/
def asciiLowerChar (c : Char) : Char :=
  if 'A' ≤ c ∧ c ≤ 'Z' then Char.ofNat (c.toNat + 32) else c

/-- Model of Rust str::to_ascii_lowercase. -/
def toAsciiLowercase (s : String) : String := ⟨s.data.map asciiLowerChar⟩

/-! ## Download settings and the install-cache key (src/src/settings.rs and
src/src/env.rs) -/

/-- Default release repository, from settings.rs line 4. -/
def DEFAULT_LOOM_CORE_REPO : String := "crb2nu/loom-core"

/-- LoomDownloadSettings from settings.rs lines 28-38: all four fields are
optional in the user's configuration. -/
structure LoomDownloadSettings where
  enabled : Option Bool := none
  repo : Option String := none
  tag : Option String := none
  asset : Option String := none
deriving DecidableEq

/-- The repo() accessor from settings.rs lines 94-99: default then trim. -/
def LoomDownloadSettings.repoValue (s : LoomDownloadSettings) : String :=
  strTrim (s.repo.getD DEFAULT_LOOM_CORE_REPO)

/-- The enabled() accessor from settings.rs lines 90-92: defaults to true. -/
def LoomDownloadSettings.enabledValue (s : LoomDownloadSettings) : Bool :=
  s.enabled.getD true

/-- The is_latest computation from download.rs lines 54-58: a request is a
"latest" lookup when the tag is absent or trims to the empty string. -/
def tagIsLatest (tag : Option String) : Bool :=
  (tag.map (fun t => strIsEmpty (strTrim t))).getD true

/-- Debug rendering of Os exactly as Rust derive(Debug) prints zed::Os. -/
def debugOs : Os → String
  | .mac => "Mac"
  | .linux => "Linux"
  | .windows => "Windows"

/-- Debug rendering of Architecture as Rust derive(Debug) prints it. -/
def debugArch : Architecture → String
  | .aarch64 => "Aarch64"
  | .x8664 => "X8664"
  | .x86 => "X86"

/-- install_key from env.rs lines 56-69: the cache key formats the repo
accessor, the raw (untrimmed) tag and asset defaulted to "", and the Debug
forms of os and arch. -/
def install_key (settings : LoomDownloadSettings) (os : Os) (arch : Architecture) : String :=
  "repo=" ++ settings.repoValue ++ " tag=" ++ settings.tag.getD "" ++
    " asset=" ++ settings.asset.getD "" ++ " os=" ++ debugOs os ++ " arch=" ++ debugArch arch

/-! ## Install records and the cache-lookup phase (src/src/download.rs) -/

/-- Freshness window for cached "latest" records, download.rs line 14. -/
def LATEST_RELEASE_TTL_SECS : Nat := 6 * 60 * 60

/-- LoomInstall from download.rs lines 18-24. -/
structure LoomInstall where
  release_version : String
  loom_path : String
  loomd_path : Option String
  bin_dir : String
  resolved_at_unix_secs : Option Nat
deriving DecidableEq

/-- Outcome of consulting the install cache: reuse a record or fall through
to a fresh release resolution. -/
inductive CacheDecision
  | useCached (install : LoomInstall)
  | resolveFresh
deriving DecidableEq

/-- Embeds the cache-lookup phase of ensure_loom_install, download.rs lines
60-78, statement by statement. The filesystem existence test is abstracted
as the pathExists predicate and the clock as now (unix seconds); Nat
subtraction models u64::saturating_sub. The inner if at lines 71-74 returns
the cached record when the elapsed time is inside the TTL, and the code then
falls through to the unconditional return Ok at line 75, so both branches of
the TTL comparison are kept here exactly as written. -/
def cache_lookup_decision (found : Option LoomInstall) (pathExists : String → Bool)
    (now : Nat) (isLatest : Bool) : CacheDecision :=
  match found with
  | some found =>
    if pathExists found.loom_path then
      if !isLatest then .useCached found
      else
        match found.resolved_at_unix_secs with
        | some resolvedAt =>
          if now - resolvedAt < LATEST_RELEASE_TTL_SECS then .useCached found
          else .useCached found
        | none => .useCached found
    else .resolveFresh
  | none => .resolveFresh

/-! ## Retry with backoff (src/src/download.rs lines 26-45) -/

/-- The fixed backoff schedule, download.rs line 26. -/
def RETRY_BACKOFF_MS : List Nat := [500, 1000, 2000]

/-- Loop of retry_with_backoff: for each remaining delay, sleep then invoke
the operation again; stop at the first success, keep the latest error. The
operation is modelled as a function of the attempt index (0-based), and the
performed sleeps are returned alongside the result. -/
def retryLoop {T : Type} (f : Nat → Except String T) :
    List Nat → Nat → String → List Nat → Except String T × List Nat
  | [], _, lastErr, sleeps => (.error lastErr, sleeps)
  | delay :: rest, attempt, _, sleeps =>
    match f attempt with
    | .ok v => (.ok v, sleeps ++ [delay])
    | .error e => retryLoop f rest (attempt + 1) e (sleeps ++ [delay])

/-- retry_with_backoff from download.rs lines 28-45: one immediate attempt,
then the backoff loop over RETRY_BACKOFF_MS. The second component of the
result records the sleeps that were performed, in order. -/
def retry_with_backoff {T : Type} (f : Nat → Except String T) : Except String T × List Nat :=
  match f 0 with
  | .ok v => (.ok v, [])
  | .error e => retryLoop f RETRY_BACKOFF_MS 1 e []

/-! ## Release-asset selection (src/src/download.rs lines 172-231) -/

/-- Canonical OS token used in the expected asset name (download.rs 184-188). -/
def osToken : Os → String
  | .mac => "darwin"
  | .linux => "linux"
  | .windows => "windows"

/-- Canonical architecture token in the expected name (download.rs 189-193). -/
def archToken : Architecture → String
  | .aarch64 => "arm64"
  | .x8664 => "amd64"
  | .x86 => "x86"

/-- The canonical expected asset filename, download.rs lines 194-198: zip on
windows, tar.gz elsewhere. -/
def expectedAssetName (version : String) (os : Os) (arch : Architecture) : String :=
  if os = Os.windows then
    "loom-core_" ++ version ++ "_" ++ osToken os ++ "_" ++ archToken arch ++ ".zip"
  else
    "loom-core_" ++ version ++ "_" ++ osToken os ++ "_" ++ archToken arch ++ ".tar.gz"

/-- OS synonym tokens for the heuristic fallback, download.rs lines 203-207. -/
def osSynonyms : Os → List String
  | .mac => ["darwin", "macos", "mac"]
  | .linux => ["linux"]
  | .windows => ["windows", "win"]

/-- Architecture synonym tokens for the fallback, download.rs lines 208-212. -/
def archSynonyms : Architecture → List String
  | .aarch64 => ["arm64", "aarch64"]
  | .x8664 => ["x86_64", "x8664", "amd64"]
  | .x86 => ["x86", "386", "i386"]

/-- The heuristic filter from download.rs lines 214-226: lowercase name must
look like an archive, contain an OS synonym, an architecture synonym, and
the substring "loom". -/
def heuristicAssetMatch (os : Os) (arch : Architecture) (a : GithubReleaseAsset) : Bool :=
  let n := toAsciiLowercase a.name
  (strEndsWith n ".tar.gz" || strEndsWith n ".tgz" || strEndsWith n ".zip")
    && (osSynonyms os).any (fun t => strContains n t)
    && (archSynonyms arch).any (fun t => strContains n t)
    && strContains n "loom"

/-- Stable insertion by name length: keeps every element of no greater
length in front, so equal lengths preserve their original order. -/
def insertByNameLen (a : GithubReleaseAsset) :
    List GithubReleaseAsset → List GithubReleaseAsset
  | [] => [a]
  | b :: rest =>
    if b.name.length ≤ a.name.length then b :: insertByNameLen a rest else a :: b :: rest

/-- Stable sort by ascending name length, modelling the stable
sort_by(name length) at download.rs line 229. Rust's sort is stable, and a
stable sort under a total preorder has a unique result, so this insertion
sort computes the same list. -/
def sortByNameLen (l : List GithubReleaseAsset) : List GithubReleaseAsset :=
  l.foldl (fun acc a => insertByNameLen a acc) []

/-- select_release_asset from download.rs lines 172-231: exact override
first, then the canonical expected name, then the heuristic filter with the
shortest-name tie-break. -/
def select_release_asset (assets : List GithubReleaseAsset) (version : String)
    (os : Os) (arch : Architecture) (exact_name_override : Option String) :
    Option GithubReleaseAsset :=
  match (exact_name_override.map strTrim).filter (fun s => !strIsEmpty s) with
  | some overrideName => assets.find? (fun a => a.name == overrideName)
  | none =>
    match assets.find? (fun a => a.name == expectedAssetName version os arch) with
    | some asset => some asset
    | none => (sortByNameLen (assets.filter (heuristicAssetMatch os arch))).head?

/-! ## Environment augmentation (src/src/env.rs lines 26-54) -/

/-- upsert_env from env.rs lines 48-54: replace the value of the first entry
with a matching key, or append a new entry when none matches. -/
def upsert_env : List (String × String) → String → String → List (String × String)
  | [], key, value => [(key, value)]
  | (k, v) :: rest, key, value =>
    if k == key then (k, value) :: rest else (k, v) :: upsert_env rest key value

/-- with_path_prefix from env.rs lines 26-46 (renamed here): the existing
PATH value is the env's first PATH entry, else the host process PATH
(modelled by the hostPATH argument), else empty; a blank existing value
yields dir alone, otherwise dir, the separator, then the existing value; the
result is upserted into the environment. -/
def prepend_path_dir (env : List (String × String)) (dir sep : String)
    (hostPATH : Option String) : List (String × String) :=
  let existing :=
    (((env.find? (fun e => e.1 == "PATH")).map Prod.snd).orElse (fun _ => hostPATH)).getD ""
  let new_path := if strIsEmpty (strTrim existing) then dir else dir ++ sep ++ existing
  upsert_env env "PATH" new_path

/-! ## Context-server command resolution (src/src/lib.rs lines 36-102) -/

/-- Resolved command triple, mirroring zed::Command. -/
structure Command where
  command : String
  args : List String
  env : List (String × String)
deriving DecidableEq

/-- The relevant slice of Zed's per-project command settings: optional
explicit path, optional argument list, optional environment entries (the
entries of the settings map, in the sorted order env_map_to_vec produces). -/
structure CommandSettings where
  path : Option String := none
  arguments : Option (List String) := none
  env : Option (List (String × String)) := none
deriving DecidableEq

/-- Embeds the resolution core of context_server_command, lib.rs lines
49-101, after the server-id check and settings fetch: explicit non-blank
path wins; otherwise, when downloading is enabled the install outcome
(modelled by the installResult argument, standing for
ensure_loom_install) supplies the binary and augments PATH with its bin
directory; when downloading is disabled the bare name "loom" is returned
with the settings environment untouched. -/
def context_server_command (cmd : Option CommandSettings) (dl : LoomDownloadSettings)
    (installResult : Except String LoomInstall) (sep : String) (hostPATH : Option String) :
    Except String Command :=
  let env_from_settings := (cmd.bind (fun c => c.env)).getD []
  let args_from_settings :=
    ((cmd.bind (fun c => c.arguments)).filter (fun a => !a.isEmpty)).getD ["proxy"]
  match cmd.bind (fun c => c.path.filter (fun p => !strIsEmpty (strTrim p))) with
  | some path =>
    .ok { command := strTrim path, args := args_from_settings, env := env_from_settings }
  | none =>
    if dl.enabledValue then
      match installResult with
      | .ok install =>
        .ok { command := install.loom_path, args := args_from_settings,
              env := prepend_path_dir env_from_settings install.bin_dir sep hostPATH }
      | .error e => .error e
    else .ok { command := "loom", args := args_from_settings, env := env_from_settings }

/-! ## Concrete inputs used by the evaluation theorems and witnesses -/

/-- A cached install record whose latest-lookup timestamp is the epoch. -/
def staleRecord : LoomInstall :=
  { release_version := "v1.0.0"
    loom_path := "loom-core/v1.0.0/loom"
    loomd_path := none
    bin_dir := "loom-core/v1.0.0"
    resolved_at_unix_secs := some 0 }

/-- A darwin/amd64 release asset. -/
def darwinAmdAsset : GithubReleaseAsset :=
  { name := "loom-core_1.0.0_darwin_amd64.tar.gz", download_url := "https://example.invalid/mac" }

/-- A linux/arm64 release asset. -/
def linuxArmAsset : GithubReleaseAsset :=
  { name := "loom-core_1.0.0_linux_arm64.tar.gz"
    download_url := "https://example.invalid/linux-arm64" }

/-- The spec scenario's first asset, with the genericized tool-core name. -/
def toolCoreAmdAsset : GithubReleaseAsset :=
  { name := "tool-core_1.2.0_linux_amd64.tar.gz", download_url := "https://example.invalid/amd64" }

/-- The spec scenario's second asset, with the genericized tool-core name. -/
def toolCoreArmAsset : GithubReleaseAsset :=
  { name := "tool-core_1.2.0_linux_arm64.tar.gz", download_url := "https://example.invalid/arm64" }

/-- The same scenario's first asset under the code's actual naming scheme. -/
def loomCoreAmdAsset : GithubReleaseAsset :=
  { name := "loom-core_1.2.0_linux_amd64.tar.gz", download_url := "https://example.invalid/amd64" }

/-- The same scenario's second asset under the code's actual naming scheme. -/
def loomCoreArmAsset : GithubReleaseAsset :=
  { name := "loom-core_1.2.0_linux_arm64.tar.gz", download_url := "https://example.invalid/arm64" }

/-- A decorated linux/amd64 asset name for the same platform. -/
def decoratedLinuxAsset : GithubReleaseAsset :=
  { name := "loom-core_1.2.0_linux_amd64_musl.tar.gz"
    download_url := "https://example.invalid/musl" }

/-- Plain asset a.tar.gz, as in the repository's own override test. -/
def assetA : GithubReleaseAsset :=
  { name := "a.tar.gz", download_url := "https://example.invalid/a" }

/-- Plain asset b.tar.gz, as in the repository's own override test. -/
def assetB : GithubReleaseAsset :=
  { name := "b.tar.gz", download_url := "https://example.invalid/b" }

/-- An operation that fails on its first two invocations and then succeeds. -/
def failTwiceOp : Nat → Except String Nat :=
  fun k => if k < 2 then .error "transient" else .ok 7

/-! ## Helper lemmas -/

/-- Finding the first element satisfying p is taking the head of the
filtered list. -/
theorem list_find_eq_head_filter {α : Type} (p : α → Bool) (l : List α) :
    l.find? p = (l.filter p).head? := by
  induction l with
  | nil => rfl
  | cons a t ih =>
    by_cases h : p a = true
    · rw [List.find?_cons_of_pos _ h, List.filter_cons_of_pos h]
      rfl
    · rw [List.find?_cons_of_neg _ h, List.filter_cons_of_neg h]
      exact ih

/-- After an upsert, the entries with the upserted key are exactly the new
pair followed by whatever duplicates were already behind the first match. -/
theorem upsert_env_filter (env : List (String × String)) (key value : String) :
    (upsert_env env key value).filter (fun e => e.1 == key)
      = (key, value) :: (env.filter (fun e => e.1 == key)).tail := by
  induction env with
  | nil => simp [upsert_env]
  | cons hd tl ih =>
    obtain ⟨k, v⟩ := hd
    rw [upsert_env]
    by_cases hk : k = key
    · subst hk
      simp [List.filter_cons]
    · simp only [beq_iff_eq, hk, if_false]
      rw [List.filter_cons_of_neg (by simp [hk]), List.filter_cons_of_neg (by simp [hk])]
      exact ih

/-- After an upsert, looking the key up finds exactly the upserted pair. -/
theorem upsert_env_find (env : List (String × String)) (key value : String) :
    (upsert_env env key value).find? (fun e => e.1 == key) = some (key, value) := by
  induction env with
  | nil => simp [upsert_env]
  | cons hd tl ih =>
    obtain ⟨k, v⟩ := hd
    rw [upsert_env]
    by_cases hk : k = key
    · subst hk
      simp
    · simp only [beq_iff_eq, hk, if_false]
      rw [List.find?_cons_of_neg _ (by simp [hk])]
      exact ih

/-! ## Claim theorems -/

/-- C1: a cached "latest" install record whose primary binary path still
exists and whose resolved_at timestamp is a full freshness window (21600 s)
in the past is nevertheless returned from the cache by the lookup phase of
ensure_loom_install rather than triggering a fresh release resolution: the
unconditional return at download.rs line 75 makes the TTL comparison dead,
contradicting the comment at line 66 and the claim. -/
theorem c1_stale_latest_cache_hit_still_returned :
    LATEST_RELEASE_TTL_SECS ≤ 21601 - 0 ∧
    tagIsLatest none = true ∧
    cache_lookup_decision (some staleRecord) (fun _ => true) 21601 (tagIsLatest none)
      = CacheDecision.useCached staleRecord := by
  refine ⟨by decide, by decide, ?_⟩
  decide

/-- C2: with no exact-name override, an asset list holding a darwin/amd64
and a linux/arm64 archive, and a requested platform of windows/x86_64,
select_release_asset returns the darwin asset: the windows OS synonym "win"
occurs inside the token "darwin", so the heuristic filter accepts an asset
whose OS token belongs to a different platform, contradicting the claim
that a mismatched asset is never selected. -/
theorem c2_windows_request_returns_darwin_asset :
    select_release_asset [darwinAmdAsset, linuxArmAsset] "1.0.0"
        Os.windows Architecture.x8664 none
      = some darwinAmdAsset := by
  decide

/-- C3 counterexample: on the spec's literal scenario input, whose asset
names start with tool-core rather than the tool's actual name, the canonical
name never matches and the heuristic filter rejects every asset for lack of
the substring "loom", so select_release_asset returns none instead of the
first asset. -/
theorem c3_toolcore_assets_yield_none :
    select_release_asset [toolCoreAmdAsset, toolCoreArmAsset] "1.2.0"
        Os.linux Architecture.x8664 none
      = none ∧
    select_release_asset [toolCoreAmdAsset, toolCoreArmAsset] "1.2.0"
        Os.linux Architecture.x8664 none
      ≠ some toolCoreAmdAsset := by
  decide

/-- C3 amended: on the same scenario with the asset names carrying the
tool's actual naming scheme (loom-core_1.2.0_linux_amd64.tar.gz and the
arm64 sibling), version "1.2.0", platform linux/x86_64 and no override,
select_release_asset returns the first (linux_amd64) asset. -/
theorem c3_loomcore_assets_select_first :
    select_release_asset [loomCoreAmdAsset, loomCoreArmAsset] "1.2.0"
        Os.linux Architecture.x8664 none
      = some loomCoreAmdAsset := by
  decide

/-- C4: for every platform identity, version, and asset list that contains
an asset bearing exactly the canonical expected name (and no other asset
with that name), select_release_asset without an override returns that
asset, whatever other decorated or ambiguous names are present. -/
theorem c4_canonical_asset_selected (assets : List GithubReleaseAsset) (version : String)
    (os : Os) (arch : Architecture) (a : GithubReleaseAsset)
    (hmem : a ∈ assets) (hname : a.name = expectedAssetName version os arch)
    (huniq : ∀ b ∈ assets, b.name = expectedAssetName version os arch → b = a) :
    select_release_asset assets version os arch none = some a := by
  have hsome : (assets.find? (fun b => b.name == expectedAssetName version os arch)).isSome
      = true :=
    List.find?_isSome.mpr ⟨a, hmem, by simp [hname]⟩
  obtain ⟨b, hb⟩ := Option.isSome_iff_exists.mp hsome
  have hpb : b.name = expectedAssetName version os arch := by
    have := List.find?_some hb
    simpa using this
  have hba : b = a := huniq b (List.mem_of_find?_eq_some hb) hpb
  subst hba
  simp [select_release_asset, hb]

/-- C4 witness: with a decorated linux/amd64 asset and the canonical one
both present, the canonical one is selected for linux/x86_64 at version
"1.2.0". -/
theorem c4_canonical_asset_selected_witness :
    select_release_asset [decoratedLinuxAsset, loomCoreAmdAsset] "1.2.0"
        Os.linux Architecture.x8664 none
      = some loomCoreAmdAsset :=
  c4_canonical_asset_selected [decoratedLinuxAsset, loomCoreAmdAsset] "1.2.0"
    Os.linux Architecture.x8664 loomCoreAmdAsset (by decide) (by decide) (by decide)

/-- C5: whenever the exact-name override trims to a non-empty string,
select_release_asset returns exactly the first asset whose name equals the
trimmed override, or none when no asset has that name; the result does not
depend on the version or platform arguments, so every platform heuristic is
ignored. -/
theorem c5_exact_override_selected (assets : List GithubReleaseAsset) (version : String)
    (os : Os) (arch : Architecture) (s : String)
    (h : strIsEmpty (strTrim s) = false) :
    select_release_asset assets version os arch (some s)
      = assets.find? (fun a => a.name == strTrim s) := by
  simp [select_release_asset, Option.filter, h]

/-- C5 witness: the override " b.tar.gz " trims to b.tar.gz and selects the
asset of that exact name, ignoring the mac/aarch64 platform arguments. -/
theorem c5_exact_override_selected_witness :
    strIsEmpty (strTrim " b.tar.gz ") = false ∧
    select_release_asset [assetA, assetB] "0.1.0" Os.mac Architecture.aarch64
        (some " b.tar.gz ")
      = [assetA, assetB].find? (fun a => a.name == strTrim " b.tar.gz ") :=
  ⟨by decide,
    c5_exact_override_selected [assetA, assetB] "0.1.0" Os.mac Architecture.aarch64
      " b.tar.gz " (by decide)⟩

/-- C6 counterexample: a whitespace-only tag (here a single space) is still
a "latest" lookup, yet install_key embeds the raw tag string, so the key
differs from the key of the same settings with the tag absent — the two
resolutions do not share one cached record. -/
theorem c6_whitespace_tag_changes_key :
    install_key { enabled := none, repo := none, tag := some " ", asset := none }
        Os.linux Architecture.x8664
      ≠ install_key { enabled := none, repo := none, tag := none, asset := none }
        Os.linux Architecture.x8664 ∧
    tagIsLatest (some " ") = tagIsLatest none := by
  decide

/-- C6 amended: a settings value whose tag is the empty string produces the
same install-cache key as the same settings with the tag absent, for every
choice of the remaining settings fields, OS, and architecture; a
whitespace-only non-empty tag, although still treated as "latest", produces
a different key. -/
theorem c6_empty_tag_same_key (s : LoomDownloadSettings) (os : Os) (arch : Architecture) :
    install_key { s with tag := some "" } os arch = install_key { s with tag := none } os arch :=
  rfl

/-- C7: retry_with_backoff invokes the operation once immediately and at
most three more times, sleeping 500 ms, 1000 ms, then 2000 ms before the
respective retries; it returns the first success without further calls, and
the error of the fourth invocation when all four fail. The five cases cover
every possible first-success position, and the fails-twice case shows
success after exactly the two sleeps 500 and 1000. -/
theorem c7_retry_with_backoff_spec {T : Type} (f : Nat → Except String T) :
    (∀ v, f 0 = .ok v → retry_with_backoff f = (.ok v, [])) ∧
    (∀ e0 v, f 0 = .error e0 → f 1 = .ok v → retry_with_backoff f = (.ok v, [500])) ∧
    (∀ e0 e1 v, f 0 = .error e0 → f 1 = .error e1 → f 2 = .ok v →
      retry_with_backoff f = (.ok v, [500, 1000])) ∧
    (∀ e0 e1 e2 v, f 0 = .error e0 → f 1 = .error e1 → f 2 = .error e2 → f 3 = .ok v →
      retry_with_backoff f = (.ok v, [500, 1000, 2000])) ∧
    (∀ e0 e1 e2 e3, f 0 = .error e0 → f 1 = .error e1 → f 2 = .error e2 → f 3 = .error e3 →
      retry_with_backoff f = (.error e3, [500, 1000, 2000])) := by
  refine ⟨?_, ?_, ?_, ?_, ?_⟩
  · intro v h0
    simp [retry_with_backoff, h0]
  · intro e0 v h0 h1
    simp [retry_with_backoff, retryLoop, RETRY_BACKOFF_MS, h0, h1]
  · intro e0 e1 v h0 h1 h2
    simp [retry_with_backoff, retryLoop, RETRY_BACKOFF_MS, h0, h1, h2]
  · intro e0 e1 e2 v h0 h1 h2 h3
    simp [retry_with_backoff, retryLoop, RETRY_BACKOFF_MS, h0, h1, h2, h3]
  · intro e0 e1 e2 e3 h0 h1 h2 h3
    simp [retry_with_backoff, retryLoop, RETRY_BACKOFF_MS, h0, h1, h2, h3]

/-- C7 witness: an operation failing on attempts 0 and 1 and succeeding on
attempt 2 yields the success value after exactly the sleeps 500 and 1000. -/
theorem c7_retry_with_backoff_spec_witness :
    retry_with_backoff failTwiceOp = (.ok 7, [500, 1000]) :=
  (c7_retry_with_backoff_spec failTwiceOp).2.2.1 "transient" "transient" 7 rfl rfl rfl

/-- C8: for every environment whose PATH entries are exactly one entry with
value "/usr/bin", every host PATH, and every separator, prepending the
directory "/opt/tool/bin" yields an environment whose PATH entries are
exactly one entry with the separator-joined value — the entry is replaced
in place, never duplicated. -/
theorem c8_existing_path_entry_upserted (env : List (String × String))
    (hostPATH : Option String) (sep : String)
    (h : env.filter (fun e => e.1 == "PATH") = [("PATH", "/usr/bin")]) :
    (prepend_path_dir env "/opt/tool/bin" sep hostPATH).filter (fun e => e.1 == "PATH")
      = [("PATH", "/opt/tool/bin" ++ sep ++ "/usr/bin")] := by
  have hfind : env.find? (fun e => e.1 == "PATH") = some ("PATH", "/usr/bin") := by
    rw [list_find_eq_head_filter, h]
    rfl
  have hempty : strIsEmpty (strTrim "/usr/bin") = false := by decide
  simp [prepend_path_dir, hfind, hempty, upsert_env_filter, h]

/-- C8 witness: an environment with HOME and a single PATH entry /usr/bin,
prefixed with /opt/tool/bin and the unix separator, carries exactly one PATH
entry valued /opt/tool/bin:/usr/bin. -/
theorem c8_existing_path_entry_upserted_witness :
    ([("HOME", "/home/u"), ("PATH", "/usr/bin")].filter (fun e => e.1 == "PATH")
        = [("PATH", "/usr/bin")]) ∧
    (prepend_path_dir [("HOME", "/home/u"), ("PATH", "/usr/bin")] "/opt/tool/bin" ":"
          none).filter (fun e => e.1 == "PATH")
      = [("PATH", "/opt/tool/bin" ++ ":" ++ "/usr/bin")] :=
  ⟨by decide,
    c8_existing_path_entry_upserted [("HOME", "/home/u"), ("PATH", "/usr/bin")] none ":"
      (by decide)⟩

/-- C9: whenever the configured command path is absent or blank and the
download settings are disabled, context_server_command returns the bare tool
name "loom" together with the settings-derived environment, for every
possible installation outcome — so no installation result is consulted and
no cache is touched. -/
theorem c9_download_disabled_bare_loom (cmd : Option CommandSettings)
    (dl : LoomDownloadSettings) (installResult : Except String LoomInstall)
    (sep : String) (hostPATH : Option String)
    (hpath : cmd.bind (fun c => c.path.filter (fun p => !strIsEmpty (strTrim p))) = none)
    (hdl : dl.enabledValue = false) :
    context_server_command cmd dl installResult sep hostPATH
      = Except.ok
          { command := "loom"
            args := ((cmd.bind (fun c => c.arguments)).filter (fun a => !a.isEmpty)).getD ["proxy"]
            env := (cmd.bind (fun c => c.env)).getD [] } := by
  simp [context_server_command, hpath, hdl]

/-- C9 witness: with no command settings, downloads disabled, and an install
oracle that would fail if consulted, the resolver returns bare "loom" with
the default proxy argument and an empty environment. -/
theorem c9_download_disabled_bare_loom_witness :
    context_server_command none
        { enabled := some false, repo := none, tag := none, asset := none }
        (Except.error "install must not be attempted") ":" none
      = Except.ok { command := "loom", args := ["proxy"], env := [] } :=
  c9_download_disabled_bare_loom none
    { enabled := some false, repo := none, tag := none, asset := none }
    (Except.error "install must not be attempted") ":" none rfl rfl

/-- C10: whenever the environment has no PATH entry and the host PATH trims
to nothing, or the environment's first PATH entry has a value that trims to
nothing, prepending a directory sets PATH to exactly that directory with no
separator appended. -/
theorem c10_blank_path_gets_bare_dir (env : List (String × String))
    (hostPATH : Option String) (dir sep : String)
    (h : (env.find? (fun e => e.1 == "PATH") = none ∧
            strIsEmpty (strTrim (hostPATH.getD "")) = true) ∨
         (∃ k v, env.find? (fun e => e.1 == "PATH") = some (k, v) ∧
            strIsEmpty (strTrim v) = true)) :
    (prepend_path_dir env dir sep hostPATH).find? (fun e => e.1 == "PATH")
      = some ("PATH", dir) := by
  rcases h with ⟨hnone, hblank⟩ | ⟨k, v, hsome, hblank⟩
  · simp [prepend_path_dir, hnone, hblank, upsert_env_find]
  · simp [prepend_path_dir, hsome, hblank, upsert_env_find]

/-- C10 witness: an environment with only HOME and no host PATH gets a PATH
entry of exactly /opt/tool/bin. -/
theorem c10_blank_path_gets_bare_dir_witness :
    (([("HOME", "/home/u")] : List (String × String)).find? (fun e => e.1 == "PATH") = none ∧
       strIsEmpty (strTrim ((none : Option String).getD "")) = true) ∧
    (prepend_path_dir [("HOME", "/home/u")] "/opt/tool/bin" ":" none).find?
        (fun e => e.1 == "PATH")
      = some ("PATH", "/opt/tool/bin") :=
  ⟨⟨by decide, by decide⟩,
    c10_blank_path_gets_bare_dir [("HOME", "/home/u")] none "/opt/tool/bin" ":"
      (Or.inl ⟨by decide, by decide⟩)⟩

end LoomZed
